import Mathlib

/-
Verification model of the Estoque-JB inventory application (src/app.py).

Strings are modelled as lists of characters.  Python string operations
(strip, upper, title, replace, regular-expression matching) are embedded as
explicit functions on character lists, restricted to the character
repertoire the application manipulates: ASCII plus the Portuguese accented
letters appearing in the source patterns.  Machine floats that only carry
unit costs are modelled as rationals; no claim depends on float rounding.
SQLite state is modelled as an explicit record of table contents, and the
wall-clock timestamp of datetime.now is passed in as an argument.
-/

namespace EstoqueJB

/-- Strings of the model: lists of characters. -/
abbrev Str := List Char

/-- Python whitespace characters relevant to str.strip and the regex class
for whitespace (ASCII part). -/
def isPySpace (c : Char) : Bool :=
  decide (c ∈ ([' ', '\t', '\n', '\x0b', '\x0c', '\r'] : List Char))

/-- ASCII uppercase letters, the regex class [A-Z]. -/
def isUpperAZ (c : Char) : Bool := 65 ≤ c.toNat && c.toNat ≤ 90

/-- ASCII lowercase letters, [a-z]. -/
def isLowerAZ (c : Char) : Bool := 97 ≤ c.toNat && c.toNat ≤ 122

/-- ASCII digits, the regex class [0-9]. -/
def isDigitChar (c : Char) : Bool := 48 ≤ c.toNat && c.toNat ≤ 57

/-- ASCII alphanumerics, the regex class [A-Za-z0-9]. -/
def isAsciiAlnum (c : Char) : Bool := isUpperAZ c || isLowerAZ c || isDigitChar c

/-- The uppercase accented letters listed in the source regex classes. -/
def accentUpperChars : Str := "ÁÀÂÃÉÈÊÍÌÎÓÒÔÕÚÙÛÇ".toList

/-- Lowercase/uppercase pairs of the accented letters (the fragment of the
Unicode case table the application exercises). -/
def accentLowerUpper : List (Char × Char) :=
  [('á','Á'),('à','À'),('â','Â'),('ã','Ã'),('é','É'),('è','È'),('ê','Ê'),
   ('í','Í'),('ì','Ì'),('î','Î'),('ó','Ó'),('ò','Ò'),('ô','Ô'),('õ','Õ'),
   ('ú','Ú'),('ù','Ù'),('û','Û'),('ç','Ç')]

/-- Single-character uppercase map: ASCII a-z plus the accented pairs;
other characters are fixed. -/
def ciUp (c : Char) : Char :=
  if 97 ≤ c.toNat ∧ c.toNat ≤ 122 then Char.ofNat (c.toNat - 32)
  else ((accentLowerUpper.lookup c).getD c)

/-- Single-character lowercase map, the inverse direction of ciUp. -/
def loChar (c : Char) : Char :=
  if 65 ≤ c.toNat ∧ c.toNat ≤ 90 then Char.ofNat (c.toNat + 32)
  else (((accentLowerUpper.map (fun p => (p.2, p.1))).lookup c).getD c)

/-- Python str.upper on one character.  The only multi-character expansion
in the modelled repertoire is the sharp s. -/
def pyUpperChar (c : Char) : Str :=
  if c = 'ß' then ['S', 'S'] else [ciUp c]

/-- Python str.upper. -/
def pyUpper (s : Str) : Str := s.flatMap pyUpperChar

/-- Python str.strip (default whitespace set). -/
def pyStrip (s : Str) : Str :=
  (((s.dropWhile isPySpace).reverse).dropWhile isPySpace).reverse

/-- The character class kept by sanitize_sku:
[A-Z0-9 dash underscore accented-uppercase]. -/
def allowedSkuChars : Str :=
  "ABCDEFGHIJKLMNOPQRSTUVWXYZ0123456789-_ÁÀÂÃÉÈÊÍÌÎÓÒÔÕÚÙÛÇ".toList

/-- Membership in the sanitize_sku character class. -/
def allowedSkuChar (c : Char) : Bool := decide (c ∈ allowedSkuChars)

/-- sanitize_sku from src/app.py: strip, upper, remove spaces, then drop
every character outside the allowed class. -/
def sanitize_sku (s : Str) : Str :=
  ((pyUpper (pyStrip s)).filter (fun c => !(c == ' '))).filter allowedSkuChar

/-- normalize_key from src/app.py: sanitize, then keep bare ASCII
alphanumerics only. -/
def normalize_key (s : Str) : Str :=
  (sanitize_sku s).filter (fun c => isUpperAZ c || isDigitChar c)

/-- Python truthiness of an optional string: None and the empty string are
falsy. -/
def pyTruthyOpt (o : Option Str) : Bool :=
  match o with
  | some (_ :: _) => true
  | _ => false

/-- Python expression (a or b) for an optional string a and a string b. -/
def pyOrOpt (o : Option Str) (b : Str) : Str :=
  match o with
  | some s => if s = [] then b else s
  | none => b

/-- Python indexing, allowing the negative index -1 used by the parser for
the last character. -/
def pyCharAt (s : Str) (i : Int) : Option Char :=
  if i < 0 then s.get? (s.length - (-i).toNat) else s.get? i.toNat

/-- Numeric value of a digit string (int of a decimal numeral). -/
def digitsVal (s : Str) : Nat :=
  s.foldl (fun a c => a * 10 + (c.toNat - 48)) 0

/- ------------------------------------------------------------------
   Text extraction engine: processar_pdf_vendas from src/app.py.
   The regular expressions of the source are embedded as explicit
   backtracking matchers: every quantified subpattern contributes its
   candidate consumption lengths in the order a leftmost greedy engine
   explores them, and the first globally successful path wins.
   ------------------------------------------------------------------ -/

/-- The regex class [A-Z0-9 accented-uppercase] used for the colour and
variant segments of the token pattern. -/
def isColorChar (c : Char) : Bool :=
  isUpperAZ c || isDigitChar c || decide (c ∈ accentUpperChars)

/-- Length of the maximal leading run of characters in a class. -/
def runLen (p : Char → Bool) : Str → Nat
  | [] => 0
  | c :: t => if p c then runLen p t + 1 else 0

/-- Candidate lengths [hi, hi-1, ..., lo] in greedy order. -/
def descLens (hi lo : Nat) : List Nat :=
  (List.range (hi + 1 - lo)).map (fun i => hi - i)

/-- One repetition of the group (-[A-Z]{2,}): a dash, then at least two
uppercase letters, candidates in greedy order. -/
def repLens (s : Str) : List Nat :=
  match s with
  | '-' :: t => (descLens (runLen isUpperAZ t) 2).map (· + 1)
  | _ => []

/-- Consumption candidates of (-[A-Z]{2,}){0,2} in backtracking order:
for each first-repetition length, all two-repetition extensions first,
then the first repetition alone, and finally zero repetitions. -/
def group02Lens (s : Str) : List Nat :=
  ((repLens s).flatMap (fun m1 =>
    ((repLens (s.drop m1)).map (fun m2 => m1 + m2)) ++ [m1])) ++ [0]

/-- Consumption candidates of the leading structural part
[A-Z]{2,}(-[A-Z]{2,}){0,2} in backtracking order. -/
def aPartLens (s : Str) : List Nat :=
  (descLens (runLen isUpperAZ s) 2).flatMap (fun n =>
    (group02Lens (s.drop n)).map (· + n))

/-- The literal alternatives of the SIZE alternation, in source order. -/
def sizeLits : List Str := ["XGG", "GG", "XG", "PP", "G", "M", "P"].map String.toList

/-- Consumption candidates of SIZE = (XGG|GG|XG|PP|G|M|P|[0-9]{1,3}) in
alternation order, digits greedy. -/
def sizeLens (s : Str) : List Nat :=
  (sizeLits.filter (fun l => l.isPrefixOf s)).map List.length ++
    descLens (min (runLen isDigitChar s) 3) 1

/-- Match a dash followed by SIZE at the start of s; first alternative in
backtracking order wins (the continuation after SIZE always succeeds). -/
def afterSize (s : Str) : Option Nat :=
  match s with
  | '-' :: t => ((sizeLens t).head?).map (· + 1)
  | _ => none

/-- First successful total length of the token pattern
A-part, dash, colour segment, optional dash and variant segment, dash,
SIZE, exploring choices in the order of a leftmost greedy engine. -/
def tokenLen? (s : Str) : Option Nat :=
  (aPartLens s).findSome? (fun a =>
    match s.drop a with
    | '-' :: t1 =>
      (descLens (runLen isColorChar t1) 1).findSome? (fun b =>
        let s2 := t1.drop b
        let withC : Option Nat :=
          match s2 with
          | '-' :: t2 =>
            (descLens (runLen isColorChar t2) 1).findSome? (fun cl =>
              (afterSize (t2.drop cl)).map (fun z => a + 1 + b + 1 + cl + z))
          | _ => none
        match withC with
        | some r => some r
        | none => (afterSize s2).map (fun z => a + 1 + b + z))
    | _ => none)

/-- Greedy length of the optional attached-quantity capture ([0-9]{1,3})?
directly after the token; 0 means the group did not participate. -/
def qtyCapLen (s : Str) : Nat := min (runLen isDigitChar s) 3

/-- One match of sku_pattern: start offset, token-group length and
quantity-group length (0 when the quantity group is absent). -/
structure MatchData where
  start : Nat
  tokenLen : Nat
  qtyLen : Nat
deriving DecidableEq

/-- finditer scan: leftmost matches, resuming after each match end. The
fuel argument bounds the scan by the line length; every step consumes at
least one character, so the initial fuel is never exhausted. -/
def finditerAux (cs : Str) : Nat → Nat → List MatchData
  | _, 0 => []
  | pos, fuel + 1 =>
    if pos < cs.length then
      match tokenLen? (cs.drop pos) with
      | some tl =>
        let ql := qtyCapLen (cs.drop (pos + tl))
        ⟨pos, tl, ql⟩ :: finditerAux cs (pos + tl + ql) fuel
      | none => finditerAux cs (pos + 1) fuel
    else []

/-- All matches of sku_pattern over a compacted line. -/
def finditer (cs : Str) : List MatchData := finditerAux cs 0 (cs.length + 1)

/-- Full-string test for one SIZE alternative (used with an end anchor). -/
def isSizeTok (t : Str) : Bool :=
  decide (t ∈ sizeLits) ||
    (decide (1 ≤ t.length ∧ t.length ≤ 3) && t.all isDigitChar)

/-- size_suffix_re: split a token as (anything ending in a dash)(SIZE),
the first group greedy, so the largest valid split point wins. -/
def sizeSuffixSplit (token : Str) : Option (Str × Str) :=
  ((List.range token.length).reverse).findSome? (fun p =>
    if 1 ≤ p ∧ token.get? (p - 1) = some '-' ∧ isSizeTok (token.drop p) = true then
      some (token.take p, token.drop p)
    else none)

/-- The recognised size values of the parser. -/
def recognizedSizes : List Str :=
  ["4", "6", "8", "10", "12", "14", "16", "P", "M", "G", "GG", "PP", "XG", "XGG"].map
    String.toList

/-- The digit-peeling loop: repeatedly move the last character of s to the
front of the accumulator while s is longer than one character and not a
recognised size.  Fuel is the initial length of s. -/
def peelLoop : Nat → Str → Str → Str × Str
  | 0, s, acc => (s, acc)
  | n + 1, s, acc =>
    if 1 < s.length ∧ recognizedSizes.contains s = false then
      peelLoop n s.dropLast ((s.getLast?.getD ' ') :: acc)
    else (s, acc)

/-- The numeric-size disambiguation applied to a matched token and its
captured quantity string, in source order: first the peel branch for a
purely numeric unrecognised 2-3 digit size, then the 3-digit split branch
(both only when no quantity has been captured yet). -/
def disambiguate (token : Str) (qtyStr0 : Option Str) : Str × Option Str :=
  match sizeSuffixSplit token with
  | none => (token, qtyStr0)
  | some (g1, sizePart) =>
    let step1 : Str × Option Str :=
      if qtyStr0 = none ∧ (2 ≤ sizePart.length ∧ sizePart.length ≤ 3) ∧
          sizePart.all isDigitChar = true ∧ recognizedSizes.contains sizePart = false then
        let pr := peelLoop sizePart.length sizePart []
        if pr.2 ≠ [] then (g1 ++ pr.1, some pr.2) else (token, qtyStr0)
      else (token, qtyStr0)
    if step1.2 = none ∧ sizePart.length = 3 ∧ sizePart.all isDigitChar = true then
      (g1 ++ sizePart.take 2, some (sizePart.drop 2))
    else step1

/-- Full match of the quantity shape [0-9]{1,3}. -/
def isQtyStr (t : Str) : Bool :=
  (decide (1 ≤ t.length) && decide (t.length ≤ 3)) && t.all isDigitChar

/-- maybe_int from src/app.py: parse a 1-3 digit string; when the
following character is a slash keep only the first digit. -/
def maybe_int (txt : Option Str) (next_char : Option Char) : Option Nat :=
  match txt with
  | none => none
  | some t =>
    if isQtyStr t = false then none
    else if next_char = some '/' then some (digitsVal (t.take 1))
    else some (digitsVal t)

/-- m.end(2) of a match, with the Python convention -1 for a
non-participating group. -/
def end2Of (md : MatchData) : Int :=
  if md.qtyLen = 0 then -1 else ((md.start + md.tokenLen + md.qtyLen : Nat) : Int)

/-- The next_char expression of the parser loop: the character after the
quantity group when one is set and in range (Python indexing, so the
non-participating end -1 reads the last character), otherwise the
character after the token group, otherwise None. -/
def nextCharOf (compact : Str) (md : MatchData) (qtyStr : Option Str) : Option Char :=
  if (if pyTruthyOpt qtyStr then decide (end2Of md < (compact.length : Int)) else false) then
    pyCharAt compact (end2Of md)
  else if md.start + md.tokenLen < compact.length then
    compact.get? (md.start + md.tokenLen)
  else none

/-- qty_val of the parser loop: maybe_int of the (truthy) quantity string
with the computed next character. -/
def qtyValOf (compact : Str) (md : MatchData) (qtyStr : Option Str) : Option Nat :=
  match qtyStr with
  | some (c :: cs) => maybe_int (some (c :: cs)) (nextCharOf compact md (some (c :: cs)))
  | _ => none

/-- The captured quantity string of a match, None when absent. -/
def capturedQty (compact : Str) (md : MatchData) : Option Str :=
  if md.qtyLen = 0 then none
  else some ((compact.drop (md.start + md.tokenLen)).take md.qtyLen)

/-- Collapse runs of dashes to a single dash (the sub of two-or-more
dashes by one). -/
def collapseDashAux : Str → Bool → Str
  | [], _ => []
  | c :: t, prevDash =>
    if c = '-' then
      (if prevDash then collapseDashAux t true else '-' :: collapseDashAux t true)
    else c :: collapseDashAux t false

/-- norm of the parser: uppercase, delete all whitespace, collapse
repeated dashes. -/
def normStr (s : Str) : Str :=
  collapseDashAux ((pyUpper s).filter (fun c => !(isPySpace c))) false

/-- The lookahead of the stray-size patterns: some backtracking path of
the structural A-part is followed by a dash. -/
def lookaheadA (s : Str) : Bool :=
  (aPartLens s).any (fun n => decide (s.get? n = some '-'))

/-- preface_size_start: delete one leading SIZE token when the rest starts
like a structural identifier (first alternative whose lookahead holds). -/
def applyPrefaceStart (s : Str) : Str :=
  match (sizeLens s).find? (fun n => lookaheadA (s.drop n)) with
  | some n => s.drop n
  | none => s

/-- preface_size_after_comma scan with fuel: at each comma, delete a
following SIZE token whose lookahead holds, then continue after it. -/
def applyPrefaceCommaAux : Nat → Str → Str
  | 0, s => s
  | _ + 1, [] => []
  | n + 1, c :: rest =>
    if c = ',' then
      match (sizeLens rest).find? (fun l => lookaheadA (rest.drop l)) with
      | some l => ',' :: applyPrefaceCommaAux n (rest.drop l)
      | none => ',' :: applyPrefaceCommaAux n rest
    else c :: applyPrefaceCommaAux n rest

/-- preface_size_after_comma over a whole line. -/
def applyPrefaceComma (s : Str) : Str := applyPrefaceCommaAux s.length s

/-- One extracted candidate fact (a row of the movimentos list). -/
structure Fact where
  sku_pdf : Str
  sku : Str
  quantidade : Nat
  produto : Str
  variacao : Str
  mapeado : Bool
deriving DecidableEq

/-- The constant placeholder text of the extracted rows. -/
def extraidoPDF : Str := "Extraído do PDF".toList

/-- State threaded through the parser loop: emitted facts, the
deduplication set and the pending token. -/
structure ExtState where
  movimentos : List Fact
  vistos : List (Str × Nat)
  pending : Option Str

/-- Build one fact, resolving through the mapping-registry lookup (the
get_sku_mapping collaborator, passed as a function). -/
def mkFact (mapped : Str → Option Str) (sku_n : Str) (q : Nat) : Fact :=
  let m := mapped sku_n
  { sku_pdf := sku_n, sku := pyOrOpt m sku_n, quantidade := q,
    produto := extraidoPDF, variacao := extraidoPDF, mapeado := pyTruthyOpt m }

/-- Record an accepted (identifier, quantity) pair: deduplicate, append a
fact when new, and clear the pending token. -/
def pushFact (mapped : Str → Option Str) (st : ExtState) (sku_n : Str) (q : Nat) :
    ExtState :=
  if st.vistos.contains (sku_n, q) then { st with pending := none }
  else
    { movimentos := st.movimentos ++ [mkFact mapped sku_n q],
      vistos := st.vistos ++ [(sku_n, q)],
      pending := none }

/-- Process one match of the token pattern: disambiguate the size and
quantity, compute the quantity value, and either emit or hold as
pending. -/
def processMatch (mapped : Str → Option Str) (compact : Str) (st : ExtState)
    (md : MatchData) : ExtState :=
  let token := (compact.drop md.start).take md.tokenLen
  let d := disambiguate token (capturedQty compact md)
  match qtyValOf compact md d.2 with
  | some q => pushFact mapped st (normStr d.1) q
  | none => { st with pending := some d.1 }

/-- Tail digits, the full match of [0-9]{1,3}. -/
def tailDigits? (t : Str) : Option Nat :=
  if isQtyStr t then some (digitsVal t) else none

/-- The second pending-tail shape: an optional SIZE followed by 1-3
digits consuming the whole tail; the digits are the quantity. -/
def tailSizeQty? (tail : Str) : Option Nat :=
  match (sizeLens tail).findSome? (fun n => tailDigits? (tail.drop n)) with
  | some q => some q
  | none => tailDigits? tail

/-- Process one merged line: compact it, strip stray sizes, run the match
loop, then try to resolve a pending token from the line tail. -/
def processLine (mapped : Str → Option Str) (st : ExtState) (ln : Str) : ExtState :=
  let compact := applyPrefaceComma (applyPrefaceStart (normStr ln))
  let mds := finditer compact
  let st1 := mds.foldl (processMatch mapped compact) st
  let lastEnd :=
    match mds.getLast? with
    | some md => md.start + md.tokenLen + md.qtyLen
    | none => 0
  match st1.pending with
  | none => st1
  | some pend =>
    let tail := compact.drop lastEnd
    if isQtyStr tail then
      match maybe_int (some tail) none with
      | some q => pushFact mapped st1 (normStr pend) q
      | none => st1
    else
      match tailSizeQty? tail with
      | some q => pushFact mapped st1 (normStr pend) q
      | none => st1

/-- Strip a trailing pagination marker (spaces, digits, slash, digits,
optional trailing spaces) from a line end. -/
def stripPagination (s : Str) : Str :=
  let r := s.reverse
  let r1 := r.dropWhile isPySpace
  let d1 := (r1.takeWhile isDigitChar).length
  if d1 = 0 then s
  else
    match r1.drop d1 with
    | '/' :: r3 =>
      let d2 := (r3.takeWhile isDigitChar).length
      if d2 = 0 then s
      else
        let r4 := r3.drop d2
        let sp := (r4.takeWhile isPySpace).length
        if sp = 0 then s else (r4.drop sp).reverse
    | _ => s

/-- Case-insensitive canonical form of a line for the noise filter. -/
def upLine (l : Str) : Str := l.map ciUp

/-- Bool test that a pattern literal starts the (upper-cased) line. -/
def startsWithS (pat : String) (u : Str) : Bool := pat.toList.isPrefixOf u

/-- Substring test used for the print-banner pattern. -/
def containsS (pat : String) (u : Str) : Bool :=
  u.tails.any (fun t => pat.toList.isPrefixOf t)

/-- Exact line of the shape digits slash digits. -/
def fracLine (u : Str) : Bool :=
  let a := (u.takeWhile isDigitChar).length
  decide (1 ≤ a) &&
    (match u.drop a with
     | '/' :: r => decide (1 ≤ r.length) && r.all isDigitChar
     | _ => false)

/-- n leading digits exactly, returning the rest. -/
def digitsThen (n : Nat) (s : Str) : Option Str :=
  if (s.take n).length = n ∧ (s.take n).all isDigitChar = true then some (s.drop n)
  else none

/-- Line starting with a date d{1,2}/d{1,2}/d{4}. -/
def dateLineStart (u : Str) : Bool :=
  [2, 1].any (fun a =>
    match digitsThen a u with
    | some ('/' :: r1) =>
      [2, 1].any (fun b =>
        match digitsThen b r1 with
        | some ('/' :: r2) =>
          decide ((r2.take 4).length = 4) && (r2.take 4).all isDigitChar
        | _ => false)
    | _ => false)

/-- skip_re of the parser: the fixed case-insensitive noise patterns, all
anchored at the line start. -/
def skipLine (l : Str) : Bool :=
  let u := upLine l
  startsWithS "LISTA DE RESUMO" u ||
  startsWithS "(PRODUTOS DO ARMAZEM)" u || startsWithS "(PRODUTOS DO ARMAZÉM)" u ||
  startsWithS "PRODUTOS DO ARMAZEM" u || startsWithS "PRODUTOS DO ARMAZÉM" u ||
  decide (u = "VARIACAO".toList) || decide (u = "VARIAÇAO".toList) ||
  decide (u = "VARIACÃO".toList) || decide (u = "VARIAÇÃO".toList) ||
  decide (u = "SKU DE PRODUTO".toList) ||
  decide (u = "QTD".toList) || decide (u = "QTD.".toList) ||
  (startsWithS "IMPRIMIR" u && containsS "UPSELLER" (u.drop 8)) ||
  startsWithS "HTTP://" u || startsWithS "HTTPS://" u ||
  fracLine u ||
  dateLineStart u ||
  startsWithS "QTD. DE PEDIDOS" u ||
  startsWithS "NUMERO DE SKUS DE PRODUTOS" u ||
  startsWithS "NÚMERO DE SKUS DE PRODUTOS" u ||
  startsWithS "TOTAL DE PRODUTOS" u

/-- Whether a line ends in a dash. -/
def endsWithDash (s : Str) : Bool := decide (s.getLast? = some '-')

/-- The wrap-merge inner loop: concatenate following lines while the
accumulated line still ends in a dash. -/
def mergeAccum : Str → List Str → Str × List Str
  | cur, [] => (cur, [])
  | cur, x :: xs =>
    if endsWithDash cur then mergeAccum (cur ++ x) xs else (cur, x :: xs)

/-- The wrap-merge outer loop with fuel (one unit per emitted line; the
list length suffices since every step consumes at least one line). -/
def mergeLinesAux : Nat → List Str → List Str
  | 0, rest => rest
  | _ + 1, [] => []
  | n + 1, x :: xs =>
    let pr := mergeAccum x xs
    pr.1 :: mergeLinesAux n pr.2

/-- The wrap-merge pass over the kept lines. -/
def mergeLines (l : List Str) : List Str := mergeLinesAux l.length l

/-- Line preparation of the parser: split on line breaks (carriage
returns first folded to newlines), strip, drop empties, strip pagination
markers, drop noise lines, and wrap-merge. -/
def extractLines (raw : Str) : List Str :=
  let lines0 := ((raw.map (fun c => if c = '\r' then '\n' else c)).splitOn '\n').map pyStrip
  let lines1 := lines0.filter (fun l => decide (l ≠ []))
  let lines2 := lines1.map stripPagination
  let kept := lines2.filter (fun l => !(skipLine l))
  mergeLines kept

/-- The whole extraction pipeline: the ordered candidate facts of a raw
document text, given the mapping-registry lookup. -/
def extractFacts (mapped : Str → Option Str) (raw : Str) : List Fact :=
  ((extractLines raw).foldl (processLine mapped) ⟨[], [], none⟩).movimentos

/-- processar_pdf_vendas outcome: failure (no items found) or success with
the fact list.  The user-interface message strings are omitted. -/
def processar_pdf_vendas (mapped : Str → Option Str) (raw : Str) : Bool × List Fact :=
  let movimentos := extractFacts mapped raw
  if movimentos = [] then (false, []) else (true, movimentos)

/-- The empty mapping registry (no persisted mapping rows, no variants). -/
def mapNone : Str → Option Str := fun _ => none

/- ------------------------------------------------------------------
   Inventory ledger: the SQLite tables of src/app.py as explicit state.
   Unit costs (REAL columns) are modelled as rationals.
   ------------------------------------------------------------------ -/

/-- A row of the products table. -/
structure Product where
  pid : Nat
  category : Str
  subtype : Str
  sku_base : Option Str
  custo_unitario : ℚ
deriving DecidableEq

/-- A row of the variants table. -/
structure Variant where
  vid : Nat
  product_id : Nat
  color : Str
  size : Str
  sku : Str
  custo_unitario : Option ℚ
deriving DecidableEq

/-- A row of the movements table. -/
structure Movement where
  variant_id : Nat
  qty : Int
  reason : Str
  ts : Str
deriving DecidableEq

/-- The database state: table contents plus the autoincrement counters. -/
structure DB where
  products : List Product
  variants : List Variant
  movements : List Movement
  mapping : List (Str × Str)
  nextPid : Nat
  nextVid : Nat
deriving DecidableEq

/-- Lookup of a product row by its trimmed (category, subtype) pair. -/
def findProduct (db : DB) (category subtype : Str) : Option Product :=
  db.products.find? (fun p =>
    p.category == pyStrip category && p.subtype == pyStrip subtype)

/-- Lookup of a variant row by SKU. -/
def findVariant (db : DB) (sku : Str) : Option Variant :=
  db.variants.find? (fun v => v.sku == sku)

/-- get_or_create_product from src/app.py.  On an existing product an
update statement is issued only for the explicitly supplied fields (a
supplied empty sku_base stores NULL); an omitted unit cost is never
written.  On a missing product a new row is inserted, with unit cost
defaulting to 0. -/
def get_or_create_product (db : DB) (category subtype : Str)
    (sku_base : Option Str) (custo_unitario : Option ℚ) : DB × Nat :=
  match findProduct db category subtype with
  | some p =>
    if sku_base = none ∧ custo_unitario = none then (db, p.pid)
    else
      let p' : Product :=
        { p with
          sku_base :=
            match sku_base with
            | none => p.sku_base
            | some sb => if sb = [] then none else some (pyStrip sb),
          custo_unitario := custo_unitario.getD p.custo_unitario }
      ({ db with products := db.products.map (fun q => if q.pid = p.pid then p' else q) },
       p.pid)
  | none =>
    let p : Product :=
      { pid := db.nextPid, category := pyStrip category, subtype := pyStrip subtype,
        sku_base :=
          match sku_base with
          | none => none
          | some sb => if sb = [] then none else some (pyStrip sb),
        custo_unitario := custo_unitario.getD 0 }
    ({ db with products := db.products ++ [p], nextPid := db.nextPid + 1 }, db.nextPid)

/-- The character class kept in the colour part of generate_sku:
ASCII letters, digits, accented letters of both cases, and spaces. -/
def colorKeepChars : Str :=
  ("abcdefghijklmnopqrstuvwxyzABCDEFGHIJKLMNOPQRSTUVWXYZ0123456789" ++
   "ÁÀÂÃÉÈÊÍÌÎÓÒÔÕÚÙÛÇáàâãéèêíìîóòôõúùûç ").toList

/-- Membership in the generate_sku colour class. -/
def colorKeepChar (c : Char) : Bool := decide (c ∈ colorKeepChars)

/-- Cased characters of the modelled repertoire (for str.title). -/
def isCasedChar (c : Char) : Bool :=
  (65 ≤ c.toNat && c.toNat ≤ 90) || (97 ≤ c.toNat && c.toNat ≤ 122) ||
    decide (c ∈ accentUpperChars) ||
    decide (c ∈ accentLowerUpper.map Prod.fst)

/-- Python str.title: a cased character after a non-cased one is
uppercased, any other cased character is lowercased. -/
def pyTitleAux : Bool → Str → Str
  | _, [] => []
  | prevCased, c :: cs =>
    if isCasedChar c then
      (if prevCased then loChar c else ciUp c) :: pyTitleAux true cs
    else c :: pyTitleAux false cs

/-- Python str.title over a string. -/
def pyTitle (s : Str) : Str := pyTitleAux false s

/-- generate_sku from src/app.py: clean the colour (keep the colour class
of the strip of color, strip again, title-case, delete spaces), reduce
the size to uppercased ASCII alphanumerics, uppercase the base with
spaces deleted, and join with dashes. -/
def generate_sku (sku_base color size : Str) : Str :=
  let cor_limpa :=
    (pyTitle (pyStrip ((pyStrip color).filter colorKeepChar))).filter (fun c => !(c == ' '))
  let tamanho_limpo := (pyUpper (pyStrip size)).filter isAsciiAlnum
  let sku_base_limpo := (pyUpper (pyStrip sku_base)).filter (fun c => !(c == ' '))
  sku_base_limpo ++ ['-'] ++ cor_limpa ++ ['-'] ++ tamanho_limpo

/-- The helper part of create_variant: the first n characters of the
trimmed field, uppercased, or X for an empty field. -/
def part (x : Str) (n : Nat) : Str :=
  if x = [] then ['X'] else pyUpper ((pyStrip x).take n)

/-- The SKU create_variant computes after the product has been resolved:
an explicit or inherited sku_base routed through generate_sku, otherwise
the truncated-field composite, overridden by a truthy sku_override, and
finally sanitized. -/
def variantSkuFor (db1 : DB) (product_id : Nat) (category subtype color size : Str)
    (sku_base sku_override : Option Str) : Str :=
  let skuBase' : Option Str :=
    if pyTruthyOpt sku_base then sku_base
    else
      match db1.products.find? (fun p => p.pid == product_id) with
      | some p =>
        match p.sku_base with
        | some sb => if sb = [] then none else some sb
        | none => none
      | none => none
  let sku_auto :=
    match skuBase' with
    | some sb => generate_sku sb color size
    | none =>
      part category 4 ++ ['-'] ++ part subtype 4 ++ ['-'] ++
        part color 3 ++ ['-'] ++ part size 4
  sanitize_sku (pyOrOpt sku_override sku_auto)

/-- The failure message of create_variant (the SQLite exception detail is
abstracted away). -/
def errCreateVariant : Str :=
  "Não foi possível criar a variante. SKU já existe?".toList

/-- create_variant from src/app.py.  The product upsert commits on its
own before the variant insert is attempted; a duplicate SKU makes the
insert fail, returning the state left by the product upsert.  The
custo_unitario_produto argument is accepted and ignored, as in the
source. -/
def create_variant (db : DB) (category subtype color size : Str)
    (sku_base sku_override : Option Str) (custo_unitario_produto : ℚ)
    (custo_unitario_variante : Option ℚ) : DB × Bool × Str :=
  let r := get_or_create_product db category subtype sku_base none
  let db1 := r.1
  let product_id := r.2
  let sku := variantSkuFor db1 product_id category subtype color size sku_base sku_override
  if db1.variants.any (fun v => v.sku == sku) then (db1, false, errCreateVariant)
  else
    let v : Variant :=
      { vid := db1.nextVid, product_id := product_id, color := pyStrip color,
        size := pyStrip size, sku := sku,
        custo_unitario :=
          match custo_unitario_variante with
          | some c => if c = 0 then none else some c
          | none => none }
    ({ db1 with variants := db1.variants ++ [v], nextVid := db1.nextVid + 1 }, true, sku)

/-- The error text of record_movement. -/
def errSkuNotFound : Str := "SKU não encontrado.".toList

/-- record_movement from src/app.py: raise when no variant has the SKU,
otherwise insert one movement row with the given quantity, reason and
the current timestamp (passed in as ts).  The source performs no
validation of the quantity. -/
def record_movement (db : DB) (sku : Str) (qty : Int) (reason : Str) (ts : Str) :
    Except Str DB :=
  match findVariant db sku with
  | none => .error errSkuNotFound
  | some v =>
    .ok { db with movements := db.movements ++ [⟨v.vid, qty, reason, ts⟩] }

/-- Stock of a variant: the sum of its movement quantities (the grouped
sum of the stock view). -/
def stockOf (db : DB) (vid : Nat) : Int :=
  (db.movements.filter (fun m => m.variant_id == vid)).foldl (fun a m => a + m.qty) 0

/-- The per-SKU stock snapshot of the applier page (map_estoque built
from stock_df): stock by original SKU, defaulting to 0. -/
def mapEstoque (db : DB) (sku : Str) : Int :=
  match findVariant db sku with
  | some v => stockOf db v.vid
  | none => 0

/- ------------------------------------------------------------------
   Shortfall-aware applier: the Aplicar baixas loop of the Baixa por
   PDF page.
   ------------------------------------------------------------------ -/

/-- One human-reviewed row of the editable grid. -/
structure ReviewLine where
  sku_pdf : Str
  sku : Str
  quantidade : Int
  quantidade_corrigida : Option Int
deriving DecidableEq

/-- The aggregate counters the applier reports. -/
structure ApplyCounters where
  ok_count : Nat
  mapeados : Nat
  erros : Nat
  faltando : Nat
  total_faltou_vender : Int
deriving DecidableEq

/-- quantidade_a_baixar of the applier loop: at most the available
snapshot stock is sold. -/
def quantidade_a_baixar (qtd estoque : Int) : Int := min qtd estoque

/-- faltara_item of the applier loop: the unfulfillable part of the
requested quantity. -/
def faltara_item (qtd estoque : Int) : Int := max 0 (qtd - estoque)

/-- The reason tag of document-driven sales. -/
def vendaPdf : Str := "venda_pdf".toList

/-- Upsert of a mapping row (insert or overwrite on conflict). -/
def upsertMapping (l : List (Str × Str)) (k v : Str) : List (Str × Str) :=
  if l.any (fun p => p.1 == k) then l.map (fun p => if p.1 = k then (k, v) else p)
  else l ++ [(k, v)]

/-- The requested quantity of a row: the corrected quantity when present
(NaN and missing modelled as none), otherwise the extracted one. -/
def qtdOf (r : ReviewLine) : Int :=
  match r.quantidade_corrigida with
  | some q => q
  | none => r.quantidade

/-- One iteration of the Aplicar baixas loop.  existentes, s2o (the
sanitized-to-original SKU map) and est (the stock snapshot) are computed
once before the loop from the pre-batch state; a raised record_movement
is caught and counted as an error; the mapping upsert never fails here
because the target SKU is known to exist. -/
def applyLine (existentes : List Str) (s2o : Str → Option Str) (est : Str → Int)
    (grava_map : Bool) (ts : Str) (acc : DB × ApplyCounters) (r : ReviewLine) :
    DB × ApplyCounters :=
  let db := acc.1
  let c := acc.2
  let sku_pdf := sanitize_sku r.sku_pdf
  let qtd := qtdOf r
  let sku_est_sanit := sanitize_sku r.sku
  if sku_est_sanit = [] then (db, { c with faltando := c.faltando + 1 })
  else if !(existentes.contains sku_est_sanit) then
    (db, { c with erros := c.erros + 1 })
  else
    let sku_original := (s2o sku_est_sanit).getD []
    let estoque_atual_item := est sku_original
    let baixa := quantidade_a_baixar qtd estoque_atual_item
    let falta := faltara_item qtd estoque_atual_item
    let step1 : Option (DB × ApplyCounters) :=
      if 0 < baixa then
        match record_movement db sku_original (-baixa) vendaPdf ts with
        | .ok db' =>
          let c1 := { c with ok_count := c.ok_count + 1 }
          let c2 :=
            if 0 < falta then
              { c1 with total_faltou_vender := c1.total_faltou_vender + falta }
            else c1
          some (db', c2)
        | .error _ => none
      else some (db, c)
    match step1 with
    | none => (db, { c with erros := c.erros + 1 })
    | some (db1, c1) =>
      if grava_map ∧ sku_pdf ≠ [] then
        ({ db1 with mapping := upsertMapping db1.mapping sku_pdf sku_original },
         { c1 with mapeados := c1.mapeados + 1 })
      else (db1, c1)

/-- The sanitized-to-original SKU dictionary (last write wins, as in the
dict comprehension). -/
def skuSanToOrig (db : DB) (k : Str) : Option Str :=
  ((db.variants.map (fun v => (sanitize_sku v.sku, v.sku))).reverse).lookup k

/-- The whole Aplicar baixas batch: the auxiliary maps and the stock
snapshot are computed once from the pre-batch state, then every reviewed
row is processed in order. -/
def aplicarBaixas (db : DB) (rows : List ReviewLine) (grava_map : Bool) (ts : Str) :
    DB × ApplyCounters :=
  let existentes := db.variants.map (fun v => sanitize_sku v.sku)
  rows.foldl (applyLine existentes (skuSanToOrig db) (mapEstoque db) grava_map ts)
    (db, ⟨0, 0, 0, 0, 0⟩)

/- ------------------------------------------------------------------
   Helper lemmas.
   ------------------------------------------------------------------ -/

lemma allowed_char_props :
    ∀ c ∈ allowedSkuChars,
      pyUpperChar c = [c] ∧ isPySpace c = false ∧ (c == ' ') = false := by
  decide

lemma mem_sanitize_allowed {c : Char} {s : Str} (h : c ∈ sanitize_sku s) :
    c ∈ allowedSkuChars := by
  have h2 := (List.mem_filter.mp h).2
  exact of_decide_eq_true h2

lemma dropWhile_eq_self_of (p : Char → Bool) (l : Str)
    (h : ∀ c ∈ l, p c = false) : l.dropWhile p = l := by
  cases l with
  | nil => rfl
  | cons a t => simp [List.dropWhile, h a (List.mem_cons_self a t)]

lemma pyUpper_eq_self_of (l : Str) (h : ∀ c ∈ l, pyUpperChar c = [c]) :
    pyUpper l = l := by
  induction l with
  | nil => rfl
  | cons a t ih =>
    have ha := h a (List.mem_cons_self a t)
    have ht : ∀ c ∈ t, pyUpperChar c = [c] := fun c hc => h c (List.mem_cons_of_mem a hc)
    simp [pyUpper, List.flatMap_cons, ha]
    simpa [pyUpper] using ih ht

lemma pyStrip_eq_self_of (l : Str) (h : ∀ c ∈ l, isPySpace c = false) :
    pyStrip l = l := by
  unfold pyStrip
  rw [dropWhile_eq_self_of _ _ h]
  rw [dropWhile_eq_self_of _ _ (fun c hc => h c (List.mem_reverse.mp hc))]
  exact List.reverse_reverse l

/-- C8: sanitize is idempotent: sanitizing a sanitized string changes
nothing, for every string. -/
theorem sanitize_sku_idempotent (s : Str) :
    sanitize_sku (sanitize_sku s) = sanitize_sku s := by
  have hall : ∀ c ∈ sanitize_sku s, c ∈ allowedSkuChars :=
    fun c hc => mem_sanitize_allowed hc
  have h1 : pyStrip (sanitize_sku s) = sanitize_sku s :=
    pyStrip_eq_self_of _ (fun c hc => (allowed_char_props c (hall c hc)).2.1)
  have h2 : pyUpper (sanitize_sku s) = sanitize_sku s :=
    pyUpper_eq_self_of _ (fun c hc => (allowed_char_props c (hall c hc)).1)
  have h3 : (sanitize_sku s).filter (fun c => !(c == ' ')) = sanitize_sku s := by
    rw [List.filter_eq_self]
    intro c hc
    simp [(allowed_char_props c (hall c hc)).2.2]
  have h4 : (sanitize_sku s).filter allowedSkuChar = sanitize_sku s := by
    rw [List.filter_eq_self]
    intro c hc
    exact decide_eq_true (hall c hc)
  calc sanitize_sku (sanitize_sku s)
      = ((pyUpper (pyStrip (sanitize_sku s))).filter
          (fun c => !(c == ' '))).filter allowedSkuChar := rfl
    _ = sanitize_sku s := by rw [h1, h2, h3, h4]

/- ------------------------------------------------------------------
   C1: record_movement.
   ------------------------------------------------------------------ -/

/-- A ledger with one product and one variant of SKU SKU1 and no
movements. -/
def dbC1 : DB :=
  ⟨[⟨0, "A".toList, "B".toList, none, 0⟩],
   [⟨0, 0, "X".toList, "M".toList, "SKU1".toList, none⟩], [], [], 1, 1⟩

/-- C1 counterexample: record_movement performs no quantity validation;
called with qty = 0 on an existing SKU it succeeds and appends a zero
movement instead of failing with an invalid-quantity error. -/
theorem record_movement_zero_qty_succeeds :
    record_movement dbC1 "SKU1".toList 0 "ajuste".toList "T".toList =
      .ok { dbC1 with movements := [⟨0, 0, "ajuste".toList, "T".toList⟩] } := by
  rfl

/-- C1 amended: record_movement fails (with the SKU-not-found error) when
no variant has the given SKU, and otherwise appends exactly one movement
with the given quantity, reason and timestamp; it performs no quantity
check, so qty = 0 is accepted like any other value. -/
theorem record_movement_spec (db : DB) (sku : Str) (qty : Int) (reason ts : Str) :
    (findVariant db sku = none →
      record_movement db sku qty reason ts = .error errSkuNotFound) ∧
    (∀ v, findVariant db sku = some v →
      record_movement db sku qty reason ts =
        .ok { db with movements := db.movements ++ [⟨v.vid, qty, reason, ts⟩] }) := by
  constructor
  · intro h
    simp [record_movement, h]
  · intro v h
    simp [record_movement, h]

/-- Witness for record_movement_spec, at a zero quantity on the concrete
ledger. -/
theorem record_movement_spec_witness :
    record_movement dbC1 "SKU1".toList 0 "venda".toList "T2".toList =
      .ok { dbC1 with movements := dbC1.movements ++
        [⟨0, 0, "venda".toList, "T2".toList⟩] } :=
  (record_movement_spec dbC1 "SKU1".toList 0 "venda".toList "T2".toList).2
    ⟨0, 0, "X".toList, "M".toList, "SKU1".toList, none⟩ (by decide)

/- ------------------------------------------------------------------
   C2: numeric-size disambiguation on MOL-CARECA-AZUL-205.
   ------------------------------------------------------------------ -/

/-- C2 counterexample: the document consisting of the single line
MOL-CARECA-AZUL-205 does not extract the identifier MOL-CARECA-AZUL-20
with quantity 5 (nor any fact with that identifier): the peel branch of
the disambiguation runs first and the stray-size cleanup strips the
leading M, so the claimed 3-digit split never happens. -/
theorem numeric_size_claim_fails :
    ("MOL-CARECA-AZUL-20".toList, (5 : Nat)) ∉
      (extractFacts mapNone "MOL-CARECA-AZUL-205".toList).map
        (fun f => (f.sku_pdf, f.quantidade)) := by
  decide

/-- C2 amended: the right-to-left digit peeling applies before (and
shadows) the dedicated 3-digit split, and the stray-size cleanup removes
the leading M of MOL before a structural identifier; the document
MOL-CARECA-AZUL-205 extracts exactly the identifier OL-CARECA-AZUL-2
with quantity 5. -/
theorem numeric_size_actual_extraction :
    (extractFacts mapNone "MOL-CARECA-AZUL-205".toList).map
        (fun f => (f.sku_pdf, f.quantidade)) =
      [("OL-CARECA-AZUL-2".toList, 5)] := by
  decide

/- ------------------------------------------------------------------
   C3: wrap-merge on CAM-LISA-AZU- followed by L-M12.
   ------------------------------------------------------------------ -/

/-- C3 counterexample: the document with the lines CAM-LISA-AZU- and
L-M12 does not merge them to CAM-LISA-AZUL-M12 (the concatenation keeps
the trailing dash) and does not extract the identifier CAM-LISA-AZUL-M
with quantity 12. -/
theorem wrap_merge_claim_fails :
    extractLines "CAM-LISA-AZU-\nL-M12".toList ≠ ["CAM-LISA-AZUL-M12".toList] ∧
    ("CAM-LISA-AZUL-M".toList, (12 : Nat)) ∉
      (extractFacts mapNone "CAM-LISA-AZU-\nL-M12".toList).map
        (fun f => (f.sku_pdf, f.quantidade)) := by
  decide

/-- C3 amended: wrap-merge concatenates a line ending in a dash with the
following line(s) verbatim, keeping the dash, so the two lines merge to
CAM-LISA-AZU-L-M12 and extraction emits the identifier CAM-LISA-AZU-L-M
with quantity 12. -/
theorem wrap_merge_actual_extraction :
    extractLines "CAM-LISA-AZU-\nL-M12".toList = ["CAM-LISA-AZU-L-M12".toList] ∧
    (extractFacts mapNone "CAM-LISA-AZU-\nL-M12".toList).map
        (fun f => (f.sku_pdf, f.quantidade)) =
      [("CAM-LISA-AZU-L-M".toList, 12)] := by
  decide

/- ------------------------------------------------------------------
   C4: atomicity of create_variant.
   ------------------------------------------------------------------ -/

/-- A ledger holding a product of another type whose variant already owns
the SKU CAMI-TEST-RED-M that a later create_variant call will compute. -/
def dbC4 : DB :=
  ⟨[⟨0, "OLD".toList, "OLD".toList, none, 0⟩],
   [⟨0, 0, "R".toList, "M".toList, "CAMI-TEST-RED-M".toList, none⟩], [], [], 1, 1⟩

/-- C4 counterexample: a create_variant call that fails with a duplicate
SKU does not leave the ledger as it was: the product row created while
resolving the variant's product persists, so the final state differs
from the initial one. -/
theorem create_variant_not_atomic :
    (create_variant dbC4 "CAMI".toList "TEST".toList "RED".toList "M".toList
        none none 0 none).2.1 = false ∧
    (create_variant dbC4 "CAMI".toList "TEST".toList "RED".toList "M".toList
        none none 0 none).1 ≠ dbC4 := by
  constructor
  · rfl
  · intro h
    exact absurd (congrArg (fun db => db.products.length) h) (by decide)

/-- C4 amended: create_variant is not all-or-nothing: the product upsert
commits on its own, so when the variant insert fails with a duplicate
SKU the call returns exactly the state left by get_or_create_product
(the created or updated product row persists), not the pre-call state. -/
theorem create_variant_fail_keeps_product (db : DB)
    (category subtype color size : Str) (sku_base sku_override : Option Str)
    (cp : ℚ) (cv : Option ℚ)
    (h : ((get_or_create_product db category subtype sku_base none).1.variants.any
        (fun v => v.sku == variantSkuFor (get_or_create_product db category subtype sku_base none).1
          (get_or_create_product db category subtype sku_base none).2
          category subtype color size sku_base sku_override)) = true) :
    create_variant db category subtype color size sku_base sku_override cp cv =
      ((get_or_create_product db category subtype sku_base none).1, false,
        errCreateVariant) := by
  unfold create_variant
  simp only [h, if_true]

/-- Witness for create_variant_fail_keeps_product on the concrete ledger
with the colliding SKU. -/
theorem create_variant_fail_keeps_product_witness :
    create_variant dbC4 "CAMI".toList "TEST".toList "RED".toList "M".toList
        none none 0 none =
      ((get_or_create_product dbC4 "CAMI".toList "TEST".toList none none).1, false,
        errCreateVariant) :=
  create_variant_fail_keeps_product dbC4 "CAMI".toList "TEST".toList "RED".toList
    "M".toList none none 0 none (by decide)

/- ------------------------------------------------------------------
   C7: frame property of get_or_create_product on an existing product.
   ------------------------------------------------------------------ -/

/-- C7: for an existing (category, subtype) product and an omitted unit
cost, get_or_create_product leaves the stored cost unchanged; sku_base
is written only when supplied, a supplied empty value clearing it; no
other product field and no other table changes; with both fields omitted
the state is untouched. -/
theorem upsert_existing_product_frame (db : DB) (category subtype : Str)
    (sb : Option Str) (p : Product) (h : findProduct db category subtype = some p) :
    (get_or_create_product db category subtype sb none).2 = p.pid ∧
    (get_or_create_product db category subtype sb none).1.variants = db.variants ∧
    (get_or_create_product db category subtype sb none).1.movements = db.movements ∧
    (get_or_create_product db category subtype sb none).1.mapping = db.mapping ∧
    (sb = none → (get_or_create_product db category subtype sb none).1 = db) ∧
    (∀ s, sb = some s → ∃ p',
      (get_or_create_product db category subtype sb none).1.products =
        db.products.map (fun q => if q.pid = p.pid then p' else q) ∧
      p'.pid = p.pid ∧ p'.category = p.category ∧ p'.subtype = p.subtype ∧
      p'.custo_unitario = p.custo_unitario ∧
      p'.sku_base = (if s = [] then none else some (pyStrip s))) := by
  cases sb with
  | none =>
    have heq : get_or_create_product db category subtype none none = (db, p.pid) := by
      simp [get_or_create_product, h]
    rw [heq]
    exact ⟨rfl, rfl, rfl, rfl, fun _ => rfl, fun s hs => by cases hs⟩
  | some s =>
    have heq : get_or_create_product db category subtype (some s) none =
        ({ db with products := db.products.map (fun q => if q.pid = p.pid then
            { p with sku_base := if s = [] then none else some (pyStrip s),
                     custo_unitario := p.custo_unitario } else q) }, p.pid) := by
      simp [get_or_create_product, h]
    rw [heq]
    refine ⟨rfl, rfl, rfl, rfl, ?_, ?_⟩
    · intro hs
      exact Option.noConfusion hs
    · intro s' hs
      injection hs with hss
      subst hss
      exact ⟨_, rfl, rfl, rfl, rfl, rfl, rfl⟩

/-- Witness for upsert_existing_product_frame: an existing product with a
stored cost of 7 keeps it when the cost is omitted and a new sku_base is
supplied. -/
theorem upsert_existing_product_frame_witness :
    ((get_or_create_product
        ⟨[⟨0, "A".toList, "B".toList, some "OLDBASE".toList, 7⟩], [], [], [], 1, 0⟩
        "A".toList "B".toList (some "NEWBASE".toList) none).2 = 0) ∧
    (∀ s, (some "NEWBASE".toList : Option Str) = some s → ∃ p',
      (get_or_create_product
          ⟨[⟨0, "A".toList, "B".toList, some "OLDBASE".toList, 7⟩], [], [], [], 1, 0⟩
          "A".toList "B".toList (some "NEWBASE".toList) none).1.products =
        [⟨0, "A".toList, "B".toList, some "OLDBASE".toList, 7⟩].map
          (fun q => if q.pid = 0 then p' else q) ∧
      p'.pid = 0 ∧ p'.category = "A".toList ∧ p'.subtype = "B".toList ∧
      p'.custo_unitario = 7 ∧
      p'.sku_base = (if s = [] then none else some (pyStrip s))) := by
  have h := upsert_existing_product_frame
    ⟨[⟨0, "A".toList, "B".toList, some "OLDBASE".toList, 7⟩], [], [], [], 1, 0⟩
    "A".toList "B".toList (some "NEWBASE".toList)
    ⟨0, "A".toList, "B".toList, some "OLDBASE".toList, 7⟩ (by decide)
  exact ⟨h.1, h.2.2.2.2.2⟩

/- ------------------------------------------------------------------
   C5: the applier clamps every line to the snapshot stock.
   ------------------------------------------------------------------ -/

lemma record_movement_ok {db : DB} {sku : Str} {v : Variant}
    (h : findVariant db sku = some v) (qty : Int) (reason ts : Str) :
    record_movement db sku qty reason ts =
      .ok { db with movements := db.movements ++ [⟨v.vid, qty, reason, ts⟩] } := by
  simp [record_movement, h]

/-- C5: for a reviewed line whose SKU resolves to an existing variant,
with requested quantity q and snapshot stock s: the applied quantity is
min q s and the line shortfall is max 0 (q - s); a movement of the
negated applied quantity tagged venda_pdf is appended exactly when the
applied quantity is positive; the applied quantity never exceeds the
snapshot stock; and no zero-quantity movement is ever created. -/
theorem applier_line_clamps (existentes : List Str) (s2o : Str → Option Str)
    (est : Str → Int) (grava : Bool) (ts : Str) (db : DB) (c : ApplyCounters)
    (r : ReviewLine) (orig : Str) (v : Variant)
    (h0 : sanitize_sku r.sku ≠ [])
    (h1 : existentes.contains (sanitize_sku r.sku) = true)
    (h2 : s2o (sanitize_sku r.sku) = some orig)
    (h3 : findVariant db orig = some v) :
    ((applyLine existentes s2o est grava ts (db, c) r).1.movements =
      db.movements ++
        (if 0 < quantidade_a_baixar (qtdOf r) (est orig) then
          [⟨v.vid, -(quantidade_a_baixar (qtdOf r) (est orig)), vendaPdf, ts⟩]
        else [])) ∧
    quantidade_a_baixar (qtdOf r) (est orig) = min (qtdOf r) (est orig) ∧
    faltara_item (qtdOf r) (est orig) = max 0 (qtdOf r - est orig) ∧
    quantidade_a_baixar (qtdOf r) (est orig) ≤ est orig ∧
    (∀ m ∈ (applyLine existentes s2o est grava ts (db, c) r).1.movements,
      m ∈ db.movements ∨ m.qty ≠ 0) := by
  have hrec := record_movement_ok h3
    (-(quantidade_a_baixar (qtdOf r) (est orig))) vendaPdf ts
  have hmain : (applyLine existentes s2o est grava ts (db, c) r).1.movements =
      db.movements ++
        (if 0 < quantidade_a_baixar (qtdOf r) (est orig) then
          [⟨v.vid, -(quantidade_a_baixar (qtdOf r) (est orig)), vendaPdf, ts⟩]
        else []) := by
    unfold applyLine
    rw [if_neg h0, h1]
    simp only [Bool.not_true, Bool.false_eq_true, if_false, h2, Option.getD_some]
    by_cases hpos : 0 < quantidade_a_baixar (qtdOf r) (est orig)
    · rw [if_pos hpos, if_pos hpos, hrec]
      dsimp only
      split
      · rfl
      · rfl
    · rw [if_neg hpos, if_neg hpos]
      dsimp only
      split
      · simp
      · simp
  refine ⟨hmain, rfl, rfl, min_le_right _ _, ?_⟩
  intro m hm
  rw [hmain] at hm
  rcases List.mem_append.mp hm with hms | hms
  · exact Or.inl hms
  · by_cases hpos : 0 < quantidade_a_baixar (qtdOf r) (est orig)
    · rw [if_pos hpos] at hms
      rcases List.mem_singleton.mp hms with rfl
      refine Or.inr ?_
      simp only [Movement.qty]
      omega
    · rw [if_neg hpos] at hms
      cases hms

/-- A ledger with one variant SKU9 holding 3 units. -/
def dbC5 : DB :=
  ⟨[⟨0, "C".toList, "S".toList, none, 0⟩],
   [⟨0, 0, "COR".toList, "M".toList, "SKU9".toList, none⟩],
   [⟨0, 3, "entrada".toList, "T0".toList⟩], [], 1, 1⟩

/-- A reviewed line requesting 5 units of SKU9. -/
def rowC5 : ReviewLine := ⟨"P1".toList, "SKU9".toList, 5, some 5⟩

/-- Witness for applier_line_clamps: requesting 5 units against a
snapshot stock of 3 appends one movement of -3. -/
theorem applier_line_clamps_witness :
    (applyLine ["SKU9".toList] (skuSanToOrig dbC5) (mapEstoque dbC5) true
        "T1".toList (dbC5, ⟨0, 0, 0, 0, 0⟩) rowC5).1.movements =
      dbC5.movements ++
        (if 0 < quantidade_a_baixar (qtdOf rowC5) (mapEstoque dbC5 "SKU9".toList) then
          [⟨0, -(quantidade_a_baixar (qtdOf rowC5) (mapEstoque dbC5 "SKU9".toList)),
            vendaPdf, "T1".toList⟩]
        else []) :=
  (applier_line_clamps ["SKU9".toList] (skuSanToOrig dbC5) (mapEstoque dbC5) true
    "T1".toList dbC5 ⟨0, 0, 0, 0, 0⟩ rowC5 "SKU9".toList
    ⟨0, 0, "COR".toList, "M".toList, "SKU9".toList, none⟩
    (by decide) (by decide) (by decide) (by decide)).1

/- ------------------------------------------------------------------
   C6: the stale pre-batch snapshot lets repeated SKUs oversell.
   ------------------------------------------------------------------ -/

/-- A ledger with one variant SKU1 holding 5 units. -/
def dbC6 : DB :=
  ⟨[⟨0, "C".toList, "S".toList, none, 0⟩],
   [⟨0, 0, "COR".toList, "M".toList, "SKU1".toList, none⟩],
   [⟨0, 5, "entrada".toList, "T0".toList⟩], [], 1, 1⟩

/-- A reviewed batch with two lines resolving to the same SKU, each
requesting the whole stock. -/
def rowsC6 : List ReviewLine :=
  [⟨[], "SKU1".toList, 5, some 5⟩, ⟨[], "SKU1".toList, 5, some 5⟩]

/-- C6: the batch applier computes its stock snapshot once before the
loop and never refreshes it, so a batch with two lines for the same SKU
records two full-stock sale movements: starting from 5 units the batch
appends -5 twice and leaves the variant at -5. -/
theorem applier_stale_snapshot_oversells :
    (aplicarBaixas dbC6 rowsC6 false "T1".toList).1.movements =
      dbC6.movements ++
        [⟨0, -5, vendaPdf, "T1".toList⟩, ⟨0, -5, vendaPdf, "T1".toList⟩] ∧
    stockOf dbC6 0 = 5 ∧
    stockOf (aplicarBaixas dbC6 rowsC6 false "T1".toList).1 0 = -5 := by
  refine ⟨?_, by decide, ?_⟩
  · rfl
  · rfl

/- ------------------------------------------------------------------
   C9: the trailing-slash quantity guard.
   ------------------------------------------------------------------ -/

lemma disambiguate_some (t qs : Str) : disambiguate t (some qs) = (t, some qs) := by
  unfold disambiguate
  cases h : sizeSuffixSplit t with
  | none => rfl
  | some gp =>
    cases gp with
    | mk g1 sp => simp

lemma pushFact_mem {mapped : Str → Option Str} {st : ExtState} {sku_n : Str} {q : Nat}
    (f : Fact) (hf : f ∈ (pushFact mapped st sku_n q).movimentos) :
    f ∈ st.movimentos ∨ f.quantidade = q := by
  unfold pushFact at hf
  split at hf
  · exact Or.inl hf
  · rcases List.mem_append.mp hf with h | h
    · exact Or.inl h
    · rcases List.mem_singleton.mp h with rfl
      exact Or.inr rfl

/-- C9: when the regex captured a 1-3 digit quantity string and the
character directly after it in the compacted line is a slash, the
quantity value computed for the match is the first digit of the capture,
and any fact the match emits carries exactly that quantity. -/
theorem trailing_slash_guard (mapped : Str → Option Str) (compact : Str)
    (st : ExtState) (md : MatchData) (qs : Str)
    (hcap : capturedQty compact md = some qs)
    (hq : isQtyStr qs = true)
    (hslash : compact.get? (md.start + md.tokenLen + md.qtyLen) = some '/') :
    qtyValOf compact md
        (disambiguate ((compact.drop md.start).take md.tokenLen)
          (capturedQty compact md)).2 = some (digitsVal (qs.take 1)) ∧
    (∀ f ∈ (processMatch mapped compact st md).movimentos,
      f ∈ st.movimentos ∨ f.quantidade = digitsVal (qs.take 1)) := by
  have hql : md.qtyLen ≠ 0 := by
    intro h
    rw [capturedQty, if_pos h] at hcap
    cases hcap
  have hlt : md.start + md.tokenLen + md.qtyLen < compact.length := by
    rcases List.get?_eq_some.mp hslash with ⟨h, _⟩
    exact h
  obtain ⟨c, cs, rfl⟩ : ∃ c cs, qs = c :: cs := by
    cases qs with
    | nil => cases hq
    | cons c cs => exact ⟨c, cs, rfl⟩
  have hnc : nextCharOf compact md (some (c :: cs)) = some '/' := by
    unfold nextCharOf end2Of pyCharAt
    rw [if_neg hql]
    have hc1 : ((md.start + md.tokenLen + md.qtyLen : Nat) : Int) <
        (compact.length : Int) := by exact_mod_cast hlt
    have hc2 : ¬(((md.start + md.tokenLen + md.qtyLen : Nat) : Int) < 0) := by omega
    simp only [pyTruthyOpt, hc1, hc2, decide_True, if_true, if_false]
    simpa using hslash
  have h1 : qtyValOf compact md (some (c :: cs)) = some (digitsVal ((c :: cs).take 1)) := by
    unfold qtyValOf
    dsimp only
    rw [hnc]
    simp [maybe_int, hq]
  constructor
  · rw [hcap, disambiguate_some]
    exact h1
  · intro f hf
    unfold processMatch at hf
    simp only [hcap, disambiguate_some, h1] at hf
    exact pushFact_mem f hf

/-- Witness for trailing_slash_guard: in the line AB-CD-M12/2025, the
captured quantity 12 is followed by a slash, so only its first digit 1 is
taken. -/
theorem trailing_slash_guard_witness :
    qtyValOf "AB-CD-M12/2025".toList ⟨0, 7, 2⟩
        (disambiguate (("AB-CD-M12/2025".toList.drop 0).take 7)
          (capturedQty "AB-CD-M12/2025".toList ⟨0, 7, 2⟩)).2 =
      some (digitsVal ("12".toList.take 1)) ∧
    (∀ f ∈ (processMatch mapNone "AB-CD-M12/2025".toList ⟨[], [], none⟩
        ⟨0, 7, 2⟩).movimentos,
      f ∈ ([] : List Fact) ∨ f.quantidade = digitsVal ("12".toList.take 1)) :=
  trailing_slash_guard mapNone "AB-CD-M12/2025".toList ⟨[], [], none⟩ ⟨0, 7, 2⟩
    "12".toList (by decide) (by decide) (by decide)

/- ------------------------------------------------------------------
   C10: every extracted quantity lies in [0, 999], and 0 is reachable.
   ------------------------------------------------------------------ -/

lemma foldl_digits_lt (cs : Str) :
    ∀ a, cs.all isDigitChar = true →
      cs.foldl (fun a c => a * 10 + (c.toNat - 48)) a < (a + 1) * 10 ^ cs.length := by
  induction cs with
  | nil => intro a _; simp
  | cons c t ih =>
    intro a hall
    rw [List.all_cons, Bool.and_eq_true] at hall
    obtain ⟨hc, ht⟩ := hall
    have hd : c.toNat - 48 ≤ 9 := by
      unfold isDigitChar at hc
      rw [Bool.and_eq_true, decide_eq_true_eq, decide_eq_true_eq] at hc
      omega
    calc (c :: t).foldl (fun a c => a * 10 + (c.toNat - 48)) a
        = t.foldl (fun a c => a * 10 + (c.toNat - 48)) (a * 10 + (c.toNat - 48)) := rfl
      _ < (a * 10 + (c.toNat - 48) + 1) * 10 ^ t.length := ih _ ht
      _ ≤ ((a + 1) * 10) * 10 ^ t.length :=
          Nat.mul_le_mul_right _ (by omega)
      _ = (a + 1) * 10 ^ (c :: t).length := by
          rw [List.length_cons, pow_succ]
          ring

lemma digitsVal_lt (cs : Str) (h : cs.all isDigitChar = true) :
    digitsVal cs < 10 ^ cs.length := by
  simpa [digitsVal] using foldl_digits_lt cs 0 h

lemma isQtyStr_spec {t : Str} (h : isQtyStr t = true) :
    1 ≤ t.length ∧ t.length ≤ 3 ∧ t.all isDigitChar = true := by
  unfold isQtyStr at h
  rw [Bool.and_eq_true, Bool.and_eq_true] at h
  exact ⟨of_decide_eq_true h.1.1, of_decide_eq_true h.1.2, h.2⟩

lemma digitsVal_le_999 {t : Str} (h1 : t.length ≤ 3) (h2 : t.all isDigitChar = true) :
    digitsVal t ≤ 999 := by
  have := digitsVal_lt t h2
  have hp : (10 : Nat) ^ t.length ≤ 10 ^ 3 := Nat.pow_le_pow_right (by omega) h1
  omega

lemma take_all_digits {t : Str} (n : Nat) (h : t.all isDigitChar = true) :
    (t.take n).all isDigitChar = true := by
  rw [List.all_eq_true] at h ⊢
  exact fun c hc => h c (List.take_subset n t hc)

lemma maybe_int_le {txt : Option Str} {nc : Option Char} {q : Nat}
    (h : maybe_int txt nc = some q) : q ≤ 999 := by
  cases txt with
  | none => cases h
  | some t =>
    simp only [maybe_int] at h
    by_cases hq : isQtyStr t = false
    · rw [if_pos hq] at h
      cases h
    · rw [if_neg hq] at h
      have hspec := isQtyStr_spec (Bool.of_not_eq_false hq)
      by_cases hs : nc = some '/'
      · rw [if_pos hs] at h
        injection h with h
        subst h
        refine digitsVal_le_999 ?_ (take_all_digits 1 hspec.2.2)
        calc (t.take 1).length ≤ 1 := by
              rw [List.length_take]
              omega
          _ ≤ 3 := by omega
      · rw [if_neg hs] at h
        injection h with h
        subst h
        exact digitsVal_le_999 hspec.2.1 hspec.2.2

lemma tailDigits?_le {t : Str} {q : Nat} (h : tailDigits? t = some q) : q ≤ 999 := by
  unfold tailDigits? at h
  by_cases hq : isQtyStr t = true
  · rw [if_pos hq] at h
    injection h with h
    subst h
    have hspec := isQtyStr_spec hq
    exact digitsVal_le_999 hspec.2.1 hspec.2.2
  · rw [if_neg hq] at h
    cases h

lemma findSome?_le_999 {α : Type} {f : α → Option Nat}
    (hb : ∀ a q, f a = some q → q ≤ 999) :
    ∀ {l : List α} {q : Nat}, l.findSome? f = some q → q ≤ 999 := by
  intro l
  induction l with
  | nil =>
    intro q h
    simp [List.findSome?] at h
  | cons a t ih =>
    intro q h
    rw [List.findSome?_cons] at h
    cases hfa : f a with
    | some b =>
      rw [hfa] at h
      injection h with h
      exact h ▸ hb a b hfa
    | none =>
      rw [hfa] at h
      exact ih h

lemma tailSizeQty?_le {t : Str} {q : Nat} (h : tailSizeQty? t = some q) : q ≤ 999 := by
  unfold tailSizeQty? at h
  cases hfs : (sizeLens t).findSome? (fun n => tailDigits? (t.drop n)) with
  | some b =>
    rw [hfs] at h
    injection h with h
    subst h
    exact findSome?_le_999 (fun a q' hq' => tailDigits?_le hq') hfs
  | none =>
    rw [hfs] at h
    exact tailDigits?_le h

lemma qtyValOf_le {compact : Str} {md : MatchData} {qs : Option Str} {q : Nat}
    (h : qtyValOf compact md qs = some q) : q ≤ 999 := by
  cases qs with
  | none => cases h
  | some l =>
    cases l with
    | nil => cases h
    | cons c cs =>
      simp only [qtyValOf] at h
      exact maybe_int_le h

lemma processMatch_mem {mapped : Str → Option Str} {compact : Str} {st : ExtState}
    {md : MatchData} (f : Fact)
    (hf : f ∈ (processMatch mapped compact st md).movimentos) :
    f ∈ st.movimentos ∨ f.quantidade ≤ 999 := by
  unfold processMatch at hf
  dsimp only at hf
  cases hq : qtyValOf compact md
      (disambiguate ((compact.drop md.start).take md.tokenLen)
        (capturedQty compact md)).2 with
  | some q =>
    rw [hq] at hf
    dsimp only at hf
    rcases pushFact_mem f hf with h | h
    · exact Or.inl h
    · exact Or.inr (h ▸ qtyValOf_le hq)
  | none =>
    rw [hq] at hf
    exact Or.inl hf

lemma foldl_processMatch_mem {mapped : Str → Option Str} {compact : Str} :
    ∀ (mds : List MatchData) (st : ExtState) (f : Fact),
      f ∈ (mds.foldl (processMatch mapped compact) st).movimentos →
        f ∈ st.movimentos ∨ f.quantidade ≤ 999 := by
  intro mds
  induction mds with
  | nil => intro st f h; exact Or.inl h
  | cons md t ih =>
    intro st f h
    rcases ih _ f h with h' | h'
    · exact processMatch_mem f h'
    · exact Or.inr h'

lemma processLine_mem {mapped : Str → Option Str} (st : ExtState) (ln : Str)
    (f : Fact) (hf : f ∈ (processLine mapped st ln).movimentos) :
    f ∈ st.movimentos ∨ f.quantidade ≤ 999 := by
  unfold processLine at hf
  dsimp only at hf
  have hbase : ∀ g, g ∈ (((finditer (applyPrefaceComma (applyPrefaceStart (normStr ln)))).foldl
      (processMatch mapped (applyPrefaceComma (applyPrefaceStart (normStr ln)))) st)).movimentos →
      g ∈ st.movimentos ∨ g.quantidade ≤ 999 :=
    fun g hg => foldl_processMatch_mem _ st g hg
  cases hp : (((finditer (applyPrefaceComma (applyPrefaceStart (normStr ln)))).foldl
      (processMatch mapped (applyPrefaceComma (applyPrefaceStart (normStr ln)))) st)).pending with
  | none =>
    rw [hp] at hf
    exact hbase f hf
  | some pend =>
    rw [hp] at hf
    dsimp only at hf
    split at hf
    · cases hmi : maybe_int (some ((applyPrefaceComma (applyPrefaceStart (normStr ln))).drop
          (match (finditer (applyPrefaceComma (applyPrefaceStart (normStr ln)))).getLast? with
            | some md => md.start + md.tokenLen + md.qtyLen
            | none => 0))) none with
      | some q =>
        rw [hmi] at hf
        dsimp only at hf
        rcases pushFact_mem f hf with h | h
        · exact hbase f h
        · exact Or.inr (h ▸ maybe_int_le hmi)
      | none =>
        rw [hmi] at hf
        exact hbase f hf
    · cases hts : tailSizeQty? ((applyPrefaceComma (applyPrefaceStart (normStr ln))).drop
          (match (finditer (applyPrefaceComma (applyPrefaceStart (normStr ln)))).getLast? with
            | some md => md.start + md.tokenLen + md.qtyLen
            | none => 0)) with
      | some q =>
        rw [hts] at hf
        dsimp only at hf
        rcases pushFact_mem f hf with h | h
        · exact hbase f h
        · exact Or.inr (h ▸ tailSizeQty?_le hts)
      | none =>
        rw [hts] at hf
        exact hbase f hf

lemma foldl_processLine_mem {mapped : Str → Option Str} :
    ∀ (lns : List Str) (st : ExtState) (f : Fact),
      f ∈ (lns.foldl (processLine mapped) st).movimentos →
        f ∈ st.movimentos ∨ f.quantidade ≤ 999 := by
  intro lns
  induction lns with
  | nil => intro st f h; exact Or.inl h
  | cons ln t ih =>
    intro st f h
    rcases ih _ f h with h' | h'
    · exact processLine_mem st ln f h'
    · exact Or.inr h'

/-- C10: every candidate fact the extraction pipeline emits carries an
integer quantity between 0 and 999 (quantities are parsed from 1-3 digit
strings), and the quantity 0 is actually reachable: the document
AB-CD-M0, whose attached quantity digit is 0, extracts the identifier
AB-CD-M with quantity 0, so extracted quantities are not guaranteed
positive. -/
theorem extraction_quantity_bounds :
    (∀ (mapped : Str → Option Str) (raw : Str) (f : Fact),
      f ∈ extractFacts mapped raw → 0 ≤ f.quantidade ∧ f.quantidade ≤ 999) ∧
    (extractFacts mapNone "AB-CD-M0".toList).map (fun f => (f.sku_pdf, f.quantidade)) =
      [("AB-CD-M".toList, 0)] := by
  constructor
  · intro mapped raw f hf
    refine ⟨Nat.zero_le _, ?_⟩
    rcases foldl_processLine_mem (extractLines raw) ⟨[], [], none⟩ f hf with h | h
    · cases h
    · exact h
  · decide

/-- Witness for extraction_quantity_bounds, at the zero-quantity fact of
the document AB-CD-M0. -/
theorem extraction_quantity_bounds_witness :
    0 ≤ (mkFact mapNone "AB-CD-M".toList 0).quantidade ∧
      (mkFact mapNone "AB-CD-M".toList 0).quantidade ≤ 999 :=
  extraction_quantity_bounds.1 mapNone "AB-CD-M0".toList
    (mkFact mapNone "AB-CD-M".toList 0) (by decide)

end EstoqueJB
